import Mathlib

/-!
Shallow embedding of the `Raffle` Solidity contract (FHE seed-commit/reveal
variant) and proofs about its pool lifecycle, winner selection and settlement.

Conventions of the embedding:
* addresses, timestamps, token amounts and `bytes32` handles are `Nat`
  (`0` plays the role of `address(0)` and of the unset `bytes32(0)` handle);
* external (mutating) contract functions become Lean functions
  `RaffleState -> args -> Except String RaffleState`; a `.error msg` result
  models an EVM revert with that message: the whole transaction is rolled
  back and the caller keeps the pre-call state, so no partial mutation and
  no fund movement survives a failure;
* `block.timestamp` is passed explicitly as a `now : Nat` argument and
  `msg.sender` as a `sender : Nat` argument;
* the MAZA ERC20 token is modelled by a `balances : Nat -> Nat` map inside
  the state together with the contract address `self`; `safeTransferFrom` /
  `safeTransfer` fail (revert) exactly when the source balance is too small;
* the FHE / keccak primitives that the contract merely calls
  (`FHE.verifySignatures`, `abi.decode`, `keccak256`) are opaque to the
  contract logic, so they are passed in as an explicit `FheEnv` record of
  plain functions and all theorems are universally quantified over it.
-/

namespace Raffle

/-- Source: `uint256 public constant POOL_DURATION = 5 minutes;` (seconds). -/
def POOL_DURATION : Nat := 300

/-- Source: `uint256 public constant ENTRY_FEE = 5 ether;` (wei). -/
def ENTRY_FEE : Nat := 5000000000000000000

/-- Source: `uint256 public constant WINNER_COUNT = 5;`. -/
def WINNER_COUNT : Nat := 5

/-- Source: `uint256 public constant PROTOCOL_FEE_PERCENTAGE = 10;`. -/
def PROTOCOL_FEE_PERCENTAGE : Nat := 10

/-- Source: `uint256 public constant WINNER_SHARE_PERCENTAGE = 90;`. -/
def WINNER_SHARE_PERCENTAGE : Nat := 90

/-- Source struct `Winner`. -/
structure Winner where
  winnerAddress : Nat
  sharePercentage : Nat
  rewardAmount : Nat
  claimed : Bool
  deriving DecidableEq, Repr

/-- Default `Winner` used only as the `getD` fallback for list indexing. -/
def defaultWinner : Winner := { winnerAddress := 0, sharePercentage := 0, rewardAmount := 0, claimed := false }

/-- Source struct `Pool` (the `euint32 encryptedRandomSeed` ciphertext is
modelled by the `Nat` handle that `FHE.toBytes32` would expose). -/
structure Pool where
  poolId : Nat
  startTime : Nat
  endTime : Nat
  totalEntries : Nat
  totalAmount : Nat
  participants : List Nat
  isClosed : Bool
  winnersDrawn : Bool
  encryptedRandomSeed : Nat
  randomSeedHandle : Nat
  randomSeedRevealed : Bool
  revealedRandomSeed : Nat
  winners : List Winner
  deriving DecidableEq, Repr

/-- The all-zero pool every not-yet-created `pools[poolId]` mapping slot holds. -/
def emptyPool : Pool :=
  { poolId := 0, startTime := 0, endTime := 0, totalEntries := 0, totalAmount := 0,
    participants := [], isClosed := false, winnersDrawn := false,
    encryptedRandomSeed := 0, randomSeedHandle := 0, randomSeedRevealed := false,
    revealedRandomSeed := 0, winners := [] }

/-- Source `_createNewPool`: writes the fresh pool record for id `pid`
(all fields zeroed, `poolId := pid`). -/
def newPool (pid : Nat) : Pool := { emptyPool with poolId := pid }

/-- Whole contract storage plus the ERC20 balance map of the MAZA token.
`self` is the raffle contract address (recipient of entry fees and source
of payouts). -/
structure RaffleState where
  pools : Nat → Pool
  hasEnteredPool : Nat → Nat → Bool
  participantIndex : Nat → Nat → Nat
  currentPoolId : Nat
  owner : Nat
  protocolFeeRecipient : Nat
  self : Nat
  balances : Nat → Nat

/-- Point update of the `pools` mapping. -/
def setPool (ps : Nat → Pool) (pid : Nat) (p : Pool) : Nat → Pool :=
  fun i => if i = pid then p else ps i

/-- Point update of a two-key boolean mapping (`hasEnteredPool`). -/
def setEntered (m : Nat → Nat → Bool) (pid who : Nat) (v : Bool) : Nat → Nat → Bool :=
  fun a b => if a = pid ∧ b = who then v else m a b

/-- Point update of a two-key `Nat` mapping (`participantIndex`). -/
def setIndex (m : Nat → Nat → Nat) (pid who : Nat) (v : Nat) : Nat → Nat → Nat :=
  fun a b => if a = pid ∧ b = who then v else m a b

/-- Point update of the ERC20 balance map. -/
def setBal (b : Nat → Nat) (a v : Nat) : Nat → Nat :=
  fun x => if x = a then v else b x

/-- ERC20 balance move `src -> dst` of `amt` (callers check sufficiency first). -/
def moveBal (b : Nat → Nat) (src dst amt : Nat) : Nat → Nat :=
  let b1 := setBal b src (b src - amt)
  setBal b1 dst (b1 dst + amt)

/-! ### Settlement arithmetic (the three formulas inside `drawWinners`) -/

/-- Source: `uint256 percentagePerWinner = WINNER_SHARE_PERCENTAGE * 100 / WINNER_COUNT;`
(basis points; evaluates to 1800). -/
def percentagePerWinner : Nat := WINNER_SHARE_PERCENTAGE * 100 / WINNER_COUNT

/-- Source: `uint256 protocolFee = (pool.totalAmount * PROTOCOL_FEE_PERCENTAGE) / 100;`. -/
def protocolFeeOf (totalAmount : Nat) : Nat := totalAmount * PROTOCOL_FEE_PERCENTAGE / 100

/-- Source: `uint256 winnerPool = pool.totalAmount - protocolFee;`. -/
def winnerPoolOf (totalAmount : Nat) : Nat := totalAmount - protocolFeeOf totalAmount

/-- Source: `uint256 rewardAmount = (winnerPool * percentagePerWinner) / 10000;`. -/
def rewardAmountOf (totalAmount : Nat) : Nat := winnerPoolOf totalAmount * percentagePerWinner / 10000

/-! ### Winner selector (`_selectWinners`)

The Solidity loop keeps the full `tempParticipants` array plus a separate
`remainingCount`; slots at positions `>= remainingCount` are dead (never read
again: every read index is `< remainingCount`).  The embedding therefore keeps
exactly the live prefix as a shrinking list: "write the last live element over
the selected slot and decrement `remainingCount`" becomes
`(temp.set idx lastLive).dropLast`.  When `remainingCount` hits zero before the
`WINNER_COUNT` iterations are up, the Solidity `winners` array keeps its
`address(0)` defaults in the remaining positions, hence the `List.replicate`
branch. -/

/-- One run of the `for (i < WINNER_COUNT && remainingCount > 0)` loop of
`_selectWinners`, with `k` iterations left and `i` the current loop counter.
`hash s i` models `uint256(keccak256(abi.encodePacked(seed, i)))`. -/
def selectLoop (hash : Nat → Nat → Nat) : Nat → Nat → List Nat → Nat → List Nat
  | 0, _, _, _ => []
  | k + 1, i, temp, seed =>
    if temp.length = 0 then List.replicate (k + 1) 0
    else
      temp.getD (seed % temp.length) 0 ::
        selectLoop hash k (i + 1)
          ((temp.set (seed % temp.length) (temp.getD (temp.length - 1) 0)).dropLast)
          (hash seed i)

/-- Source `_selectWinners(poolId, randomSeed)`: select `WINNER_COUNT` winners
from the participant list (passed directly instead of read from storage). -/
def _selectWinners (hash : Nat → Nat → Nat) (participants : List Nat) (randomSeed : Nat) : List Nat :=
  selectLoop hash WINNER_COUNT 0 participants randomSeed

/-! ### Contract operations -/

/-- The cryptographic collaborators of the contract, opaque to its logic:
`verifySignatures handles cleartexts proof` is `FHE.verifySignatures`,
`decodeU32` is `abi.decode(cleartexts, (uint32))`,
`keccakSeedExpand` is `uint256(keccak256(abi.encodePacked(randomSeed32, poolId, totalEntries)))`,
`keccakSeedIter` is `uint256(keccak256(abi.encodePacked(seed, i)))`.
Every theorem below is universally quantified over this record. -/
structure FheEnv where
  verifySignatures : List Nat → Nat → Nat → Bool
  decodeU32 : Nat → Nat
  keccakSeedExpand : Nat → Nat → Nat → Nat
  keccakSeedIter : Nat → Nat → Nat

/-- Source internal `_closePool(poolId)`: mark closed; with entries roll over
to a freshly created pool under the incremented `currentPoolId`, otherwise
reopen the pool with an extended deadline (net effect of setting `isClosed`
back to `false` and `endTime = block.timestamp + POOL_DURATION`). -/
def _closePool (s : RaffleState) (pid now : Nat) : RaffleState :=
  let p := s.pools pid
  if 0 < p.totalEntries then
    let s1 := { s with pools := setPool s.pools pid { p with isClosed := true },
                       currentPoolId := s.currentPoolId + 1 }
    { s1 with pools := setPool s1.pools s1.currentPoolId (newPool s1.currentPoolId) }
  else
    { s with pools := setPool s.pools pid { p with isClosed := false, endTime := now + POOL_DURATION } }

/-- Source external `enterPool()`. -/
def enterPool (s0 : RaffleState) (sender now : Nat) : Except String RaffleState :=
  let pid := s0.currentPoolId
  let p0 := s0.pools pid
  let s := if 0 < p0.startTime ∧ 0 < p0.endTime ∧ p0.endTime ≤ now ∧ p0.isClosed = false
           then _closePool s0 pid now else s0
  let p := s.pools pid
  if p.isClosed then .error "Pool is closed"
  else if s.hasEnteredPool pid sender then .error "Already entered this pool"
  else
    let p1 := if p.startTime = 0 then { p with startTime := now, endTime := now + POOL_DURATION } else p
    if now < p1.endTime then
      if s.balances sender < ENTRY_FEE then .error "ERC20: transfer amount exceeds balance"
      else
        let p2 := { p1 with participants := p1.participants ++ [sender],
                            totalEntries := p1.totalEntries + 1,
                            totalAmount := p1.totalAmount + ENTRY_FEE }
        .ok { s with balances := moveBal s.balances sender s.self ENTRY_FEE,
                     pools := setPool s.pools pid p2,
                     hasEnteredPool := setEntered s.hasEnteredPool pid sender true,
                     participantIndex := setIndex s.participantIndex pid sender (p2.participants.length - 1) }
    else .error "Pool has closed"

/-- Source external `closePool(poolId)` (`onlyOwner`, `poolExists`).
The source revert string for an unstarted pool contains an apostrophe
(a contraction of "has not"); it is spelled out here. -/
def closePool (s : RaffleState) (sender pid now : Nat) : Except String RaffleState :=
  if sender ≠ s.owner then .error "Only owner can call this function"
  else if ¬ pid ≤ s.currentPoolId then .error "Pool does not exist"
  else
    let p := s.pools pid
    if ¬ 0 < p.startTime then .error "Pool has not started yet"
    else if ¬ 0 < p.endTime then .error "Pool has not started yet"
    else if now < p.endTime then .error "Pool is still active"
    else if p.isClosed then .error "Pool already closed"
    else .ok (_closePool s pid now)

/-- Source external `generateRandomSeed(poolId)` (`onlyOwner`, `poolExists`).
`freshHandle` models the handle `FHE.toBytes32(FHE.randEuint32())` of the
encrypted random seed minted by the FHE coprocessor during this call. -/
def generateRandomSeed (s : RaffleState) (sender pid now freshHandle : Nat) : Except String RaffleState :=
  if sender ≠ s.owner then .error "Only owner can call this function"
  else if ¬ pid ≤ s.currentPoolId then .error "Pool does not exist"
  else
    let p0 := s.pools pid
    let s1 := if p0.isClosed = false ∧ 0 < p0.startTime ∧ 0 < p0.endTime ∧ p0.endTime ≤ now
              then _closePool s pid now else s
    let p := s1.pools pid
    if p.isClosed = false then .error "Pool must be closed first (countdown must reach 0)"
    else if p.winnersDrawn then .error "Winners already drawn"
    else if p.totalEntries < WINNER_COUNT then .error "Not enough participants"
    else if p.randomSeedHandle ≠ 0 then .error "Random seed already generated"
    else
      let p2 := { p with encryptedRandomSeed := freshHandle, randomSeedHandle := freshHandle }
      .ok { s1 with pools := setPool s1.pools pid p2 }

/-- Source external `drawWinners(poolId, cleartexts, decryptionProof)`
(`onlyOwner`, `poolExists`). -/
def drawWinners (env : FheEnv) (s : RaffleState) (sender pid now cleartexts proof : Nat) :
    Except String RaffleState :=
  if sender ≠ s.owner then .error "Only owner can call this function"
  else if ¬ pid ≤ s.currentPoolId then .error "Pool does not exist"
  else
    let p0 := s.pools pid
    let s1 := if p0.isClosed = false ∧ 0 < p0.startTime ∧ 0 < p0.endTime ∧ p0.endTime ≤ now
              then _closePool s pid now else s
    let p := s1.pools pid
    if p.isClosed = false then .error "Pool must be closed first (countdown must reach 0)"
    else if p.winnersDrawn then .error "Winners already drawn"
    else if p.totalEntries < WINNER_COUNT then .error "Not enough participants"
    else if p.randomSeedHandle = 0 then .error "Random seed not generated"
    else if p.randomSeedRevealed then .error "Random seed already revealed"
    else if env.verifySignatures [p.randomSeedHandle] cleartexts proof = false then
      .error "Invalid decryption proof"
    else
      let randomSeed := env.keccakSeedExpand (env.decodeU32 cleartexts) pid p.totalEntries
      let selectedWinners := _selectWinners env.keccakSeedIter p.participants randomSeed
      let newWinners := selectedWinners.map fun a =>
        { winnerAddress := a, sharePercentage := percentagePerWinner,
          rewardAmount := rewardAmountOf p.totalAmount, claimed := false : Winner }
      let p2 := { p with revealedRandomSeed := randomSeed, randomSeedRevealed := true,
                         winners := p.winners ++ newWinners, winnersDrawn := true }
      let s2 := { s1 with pools := setPool s1.pools pid p2 }
      if 0 < protocolFeeOf p.totalAmount then
        if s2.balances s2.self < protocolFeeOf p.totalAmount then
          .error "ERC20: transfer amount exceeds balance"
        else
          .ok { s2 with balances :=
                  moveBal s2.balances s2.self s2.protocolFeeRecipient (protocolFeeOf p.totalAmount) }
      else .ok s2

/-- The `for`-with-`break` search of `claimReward`: index of the first winner
record whose `winnerAddress` equals the caller (`none` models the sentinel
`type(uint256).max`). -/
def findWinnerIdx (sender : Nat) : List Winner → Option Nat
  | [] => none
  | w :: ws =>
    if w.winnerAddress = sender then some 0
    else (findWinnerIdx sender ws).map (· + 1)

/-- Source external `claimReward(poolId)` (`poolExists`), with the outgoing
token transfer abstracted as `transferOut` so that the claimed-before-transfer
ordering can be stated for an arbitrary transfer primitive (including a
re-entrant one). -/
def claimRewardGen (transferOut : RaffleState → Nat → Nat → Except String RaffleState)
    (s : RaffleState) (sender pid : Nat) : Except String RaffleState :=
  if ¬ pid ≤ s.currentPoolId then .error "Pool does not exist"
  else
    let p := s.pools pid
    if p.winnersDrawn = false then .error "Winners not drawn yet"
    else
      match findWinnerIdx sender p.winners with
      | none => .error "Not a winner"
      | some i =>
        let w := p.winners.getD i defaultWinner
        if w.claimed then .error "Reward already claimed"
        else
          let p2 := { p with winners := p.winners.set i { w with claimed := true } }
          let s2 := { s with pools := setPool s.pools pid p2 }
          transferOut s2 sender w.rewardAmount

/-- Concrete `mazaToken.safeTransfer(msg.sender, rewardAmount)` out of the
contract balance. -/
def tokenTransferOut (s : RaffleState) (dst amt : Nat) : Except String RaffleState :=
  if s.balances s.self < amt then .error "ERC20: transfer amount exceeds balance"
  else .ok { s with balances := moveBal s.balances s.self dst amt }

/-- Source external `claimReward(poolId)` with the concrete token transfer. -/
def claimReward (s : RaffleState) (sender pid : Nat) : Except String RaffleState :=
  claimRewardGen tokenTransferOut s sender pid

/-- Source external `setProtocolFeeRecipient` (`onlyOwner`). -/
def setProtocolFeeRecipient (s : RaffleState) (sender newRecipient : Nat) : Except String RaffleState :=
  if sender ≠ s.owner then .error "Only owner can call this function"
  else if newRecipient = 0 then .error "Invalid address"
  else .ok { s with protocolFeeRecipient := newRecipient }

/-- Source constructor: requires nonzero token and fee-recipient addresses,
sets the deployer as owner and creates pool 0 (`_createNewPool` on the
all-zero storage is the identity on `pools`). -/
def initState (deployer feeRecipient selfAddr : Nat) (bal : Nat → Nat) : RaffleState :=
  { pools := fun _ => emptyPool,
    hasEnteredPool := fun _ _ => false,
    participantIndex := fun _ _ => 0,
    currentPoolId := 0,
    owner := deployer,
    protocolFeeRecipient := feeRecipient,
    self := selfAddr,
    balances := bal }

/-- One successful (non-reverting) transaction against the contract. -/
inductive Step (env : FheEnv) : RaffleState → RaffleState → Prop
  | enter (sender now : Nat) {s s' : RaffleState}
      (h : enterPool s sender now = .ok s') : Step env s s'
  | close (sender pid now : Nat) {s s' : RaffleState}
      (h : closePool s sender pid now = .ok s') : Step env s s'
  | genSeed (sender pid now freshHandle : Nat) {s s' : RaffleState}
      (h : generateRandomSeed s sender pid now freshHandle = .ok s') : Step env s s'
  | draw (sender pid now cleartexts proof : Nat) {s s' : RaffleState}
      (h : drawWinners env s sender pid now cleartexts proof = .ok s') : Step env s s'
  | claim (sender pid : Nat) {s s' : RaffleState}
      (h : claimReward s sender pid = .ok s') : Step env s s'
  | setFeeRecipient (sender newRecipient : Nat) {s s' : RaffleState}
      (h : setProtocolFeeRecipient s sender newRecipient = .ok s') : Step env s s'

/-- States reachable from deployment by successful transactions. -/
inductive Reachable (env : FheEnv) : RaffleState → Prop
  | init (deployer feeRecipient selfAddr : Nat) (bal : Nat → Nat)
      (hfee : feeRecipient ≠ 0) :
      Reachable env (initState deployer feeRecipient selfAddr bal)
  | step {s s' : RaffleState} (hr : Reachable env s) (hs : Step env s s') : Reachable env s'

/-- Archived pools (ids below the current one) are marked closed. -/
def ClosedInv (s : RaffleState) : Prop :=
  ∀ pid, pid < s.currentPoolId → (s.pools pid).isClosed = true

/-- Pool slots above the current id are still untouched mapping defaults. -/
def FreshInv (s : RaffleState) : Prop :=
  ∀ pid, s.currentPoolId < pid → s.pools pid = emptyPool

/-! ### Concrete fixtures (used by witness theorems and counterexamples) -/

/-- A concrete oracle environment: a proof verifies iff the cleartexts word
is `1`. -/
def envW : FheEnv :=
  { verifySignatures := fun _ c _ => c == 1,
    decodeU32 := fun c => c,
    keccakSeedExpand := fun a b c => a + b + c,
    keccakSeedIter := fun s i => s + i + 1 }

/-- Closed pool with five participants and a committed (unrevealed) seed. -/
def poolW : Pool :=
  { emptyPool with
    poolId := 0, startTime := 10, endTime := 20,
    totalEntries := 5, totalAmount := 25, participants := [1, 2, 3, 4, 5],
    isClosed := true, encryptedRandomSeed := 7, randomSeedHandle := 7 }

/-- Closed pool with too few (two) participants. -/
def poolFew : Pool :=
  { emptyPool with
    poolId := 0, startTime := 10, endTime := 20,
    totalEntries := 2, totalAmount := 10, participants := [1, 2], isClosed := true }

/-- Open running pool with one participant and a far deadline. -/
def poolOpen : Pool :=
  { emptyPool with
    poolId := 0, startTime := 10, endTime := 1000,
    totalEntries := 1, totalAmount := 5, participants := [1] }

/-- Started pool whose deadline has passed with no entries. -/
def poolExpiredEmpty : Pool :=
  { emptyPool with poolId := 0, startTime := 10, endTime := 20 }

/-- Started pool whose deadline has passed with two entries. -/
def poolExpiredBusy : Pool :=
  { emptyPool with
    poolId := 0, startTime := 10, endTime := 20,
    totalEntries := 2, totalAmount := 10, participants := [1, 2] }

/-- Drawn pool with two recorded winners, the second already claimed. -/
def poolDrawn : Pool :=
  { emptyPool with
    poolId := 0, startTime := 10, endTime := 20,
    totalEntries := 5, totalAmount := 25, participants := [1, 2, 3, 4, 5],
    isClosed := true, winnersDrawn := true, randomSeedHandle := 7,
    randomSeedRevealed := true, revealedRandomSeed := 42,
    winners := [{ winnerAddress := 1, sharePercentage := 1800, rewardAmount := 4, claimed := false },
                { winnerAddress := 2, sharePercentage := 1800, rewardAmount := 4, claimed := true }] }

/-- State fixture around a given pool 0, with pool 1 current when rolled. -/
def mkState (p : Pool) (cur : Nat) : RaffleState :=
  { pools := fun i => if i = 0 then p else if i = 1 ∧ cur = 1 then newPool 1 else emptyPool,
    hasEnteredPool := fun a b => if a = 0 ∧ b = 1 ∧ 0 < p.totalEntries then true else false,
    participantIndex := fun _ _ => 0,
    currentPoolId := cur,
    owner := 9,
    protocolFeeRecipient := 8,
    self := 100,
    balances := fun a => if a = 100 then 1000 else 2 }

/-- Fixture: seed-committed closed pool, rolled over to pool 1. -/
def sW : RaffleState := mkState poolW 1

/-- Fixture: closed pool with too few participants. -/
def sFew : RaffleState := mkState poolFew 1

/-- Fixture: open running pool (still pool 0). -/
def sOpen : RaffleState := mkState poolOpen 0

/-- Fixture: expired pool with no entries (still pool 0). -/
def sExpiredEmpty : RaffleState := mkState poolExpiredEmpty 0

/-- Fixture: expired pool with two entries (still pool 0). -/
def sExpiredBusy : RaffleState := mkState poolExpiredBusy 0

/-- Fixture: drawn pool, rolled over to pool 1. -/
def sDrawn : RaffleState := mkState poolDrawn 1

/-! ### Lemmas about the winner selector -/

/-- Pulling the last element of a nonempty list to the front is a permutation. -/
lemma lastPull_perm : ∀ (u : List Nat), u ≠ [] →
    List.Perm (u.getD (u.length - 1) 0 :: u.dropLast) u := by
  intro u
  induction u with
  | nil => intro h; exact absurd rfl h
  | cons a t ih =>
    intro _
    cases t with
    | nil => simp
    | cons b t' =>
      have h2 : (b :: t') ≠ [] := by simp
      have hgd : (a :: b :: t').getD ((a :: b :: t').length - 1) 0
          = (b :: t').getD ((b :: t').length - 1) 0 := by
        simp [List.getD_cons_succ]
      have hdl : (a :: b :: t').dropLast = a :: (b :: t').dropLast := by
        simp [List.dropLast]
      rw [hgd, hdl]
      exact List.Perm.trans (List.Perm.swap a _ _) (List.Perm.cons a (ih h2))

/-- Effect of "overwrite slot `idx` with the last live element, then shrink":
the selected element together with the shrunken working list is a permutation
of the working list before the step. -/
lemma swapRemove_perm : ∀ (l : List Nat) (idx : Nat), idx < l.length →
    List.Perm (l.getD idx 0 :: (l.set idx (l.getD (l.length - 1) 0)).dropLast) l := by
  intro l
  induction l with
  | nil => intro idx h; simp at h
  | cons a t ih =>
    intro idx h
    cases idx with
    | zero =>
      cases t with
      | nil => simp
      | cons b t' =>
        have h2 : (b :: t') ≠ [] := by simp
        have hgd : (a :: b :: t').getD ((a :: b :: t').length - 1) 0
            = (b :: t').getD ((b :: t').length - 1) 0 := by
          simp [List.getD_cons_succ]
        have hdl : ((a :: b :: t').set 0 ((b :: t').getD ((b :: t').length - 1) 0)).dropLast
            = (b :: t').getD ((b :: t').length - 1) 0 :: (b :: t').dropLast := by
          simp [List.set, List.dropLast]
        rw [hgd]
        simp only [List.getD_cons_zero, List.set_cons_zero]
        have hdl2 : ((b :: t').getD ((b :: t').length - 1) 0 :: b :: t').dropLast
            = (b :: t').getD ((b :: t').length - 1) 0 :: (b :: t').dropLast := by
          simp [List.dropLast]
        rw [hdl2]
        exact List.Perm.cons a (lastPull_perm (b :: t') h2)
    | succ j =>
      cases t with
      | nil => simp at h
      | cons b t' =>
        have hj : j < (b :: t').length := by simpa using h
        have hgd : (a :: b :: t').getD (j + 1) 0 = (b :: t').getD j 0 := by
          simp [List.getD_cons_succ]
        have hlast : (a :: b :: t').getD ((a :: b :: t').length - 1) 0
            = (b :: t').getD ((b :: t').length - 1) 0 := by
          simp [List.getD_cons_succ]
        have hset : (a :: b :: t').set (j + 1) ((b :: t').getD ((b :: t').length - 1) 0)
            = a :: (b :: t').set j ((b :: t').getD ((b :: t').length - 1) 0) := by
          simp [List.set]
        rw [hgd, hlast, hset]
        have hne : (b :: t').set j ((b :: t').getD ((b :: t').length - 1) 0) ≠ [] := by
          intro hc
          have := congrArg List.length hc
          simp at this
        have hdl : (a :: (b :: t').set j ((b :: t').getD ((b :: t').length - 1) 0)).dropLast
            = a :: ((b :: t').set j ((b :: t').getD ((b :: t').length - 1) 0)).dropLast := by
          cases hcs : (b :: t').set j ((b :: t').getD ((b :: t').length - 1) 0) with
          | nil => exact absurd hcs hne
          | cons c u => simp [List.dropLast]
        rw [hdl]
        exact List.Perm.trans (List.Perm.swap a _ _) (List.Perm.cons a (ih j hj))

/-- The selection loop always produces exactly `k` entries. -/
lemma selectLoop_length (hash : Nat → Nat → Nat) :
    ∀ (k i : Nat) (temp : List Nat) (seed : Nat), (selectLoop hash k i temp seed).length = k := by
  intro k
  induction k with
  | zero => intro i temp seed; simp [selectLoop]
  | succ k ih =>
    intro i temp seed
    by_cases h : temp.length = 0
    · simp [selectLoop, h]
    · simp [selectLoop, h, ih]

/-- As long as enough live participants remain, the selection loop returns a
sub-permutation of the working list (no position is ever drawn twice). -/
lemma selectLoop_subperm (hash : Nat → Nat → Nat) :
    ∀ (k i : Nat) (temp : List Nat) (seed : Nat), k ≤ temp.length →
      (selectLoop hash k i temp seed).Subperm temp := by
  intro k
  induction k with
  | zero => intro i temp seed _; exact List.nil_subperm
  | succ k ih =>
    intro i temp seed hk
    have hne : ¬ temp.length = 0 := by omega
    have hpos : 0 < temp.length := Nat.pos_of_ne_zero hne
    have hidx : seed % temp.length < temp.length := Nat.mod_lt _ hpos
    rw [selectLoop, if_neg hne]
    have hlen2 : ((temp.set (seed % temp.length) (temp.getD (temp.length - 1) 0)).dropLast).length
        = temp.length - 1 := by
      simp [List.length_dropLast, List.length_set]
    have hk2 : k ≤ ((temp.set (seed % temp.length) (temp.getD (temp.length - 1) 0)).dropLast).length := by
      omega
    obtain ⟨u, hu, hsl⟩ := ih (i + 1) _ (hash seed i) hk2
    have hperm := swapRemove_perm temp (seed % temp.length) hidx
    refine List.Subperm.trans ?_ hperm.subperm
    exact ⟨temp.getD (seed % temp.length) 0 :: u, hu.cons _, hsl.cons₂ _⟩

/-- With pairwise-distinct participants and enough of them, the drawn entries
are pairwise distinct. -/
lemma selectLoop_nodup (hash : Nat → Nat → Nat) (k i : Nat) (temp : List Nat) (seed : Nat)
    (hk : k ≤ temp.length) (hd : temp.Nodup) : (selectLoop hash k i temp seed).Nodup := by
  obtain ⟨u, hu, hsl⟩ := selectLoop_subperm hash k i temp seed hk
  exact hu.nodup (hsl.nodup hd)

/-- C1: conservation holds in the weak direction
(`protocolFee + W * rewardAmount <= totalAmount` for every total), but the
difference is NOT below `W` minor units: for the smallest drawable pool
(5 entries of 5 MAZA, `totalAmount = 25 * 10^18` wei) the recorded amounts
leave a residual of `2.25 * 10^18` wei, i.e. 10 percent of the winner pool,
because `percentagePerWinner = 1800` basis points is applied to `winnerPool`
(which is itself already only 90 percent of `totalAmount`). -/
theorem settlement_fee_plus_rewards_residual :
    (∀ totalAmount : Nat,
        protocolFeeOf totalAmount + WINNER_COUNT * rewardAmountOf totalAmount ≤ totalAmount) ∧
    protocolFeeOf 25000000000000000000 = 2500000000000000000 ∧
    rewardAmountOf 25000000000000000000 = 4050000000000000000 ∧
    25000000000000000000 -
        (protocolFeeOf 25000000000000000000 + WINNER_COUNT * rewardAmountOf 25000000000000000000)
      = 2250000000000000000 := by
  refine ⟨?_, by decide, by decide, by decide⟩
  intro T
  simp only [protocolFeeOf, rewardAmountOf, winnerPoolOf, percentagePerWinner,
    WINNER_COUNT, WINNER_SHARE_PERCENTAGE, PROTOCOL_FEE_PERCENTAGE]
  omega

/-- C8: the winner selector is a pure deterministic function (same hash, same
participant sequence and same seed always give the same winner sequence), it
runs the loop `WINNER_COUNT` times starting from the participant list, and
each iteration computes `index = seed mod remaining`, selects
`working[index]`, removes the selected element by overwriting it with
`working[remaining - 1]` and shrinking the live range, and derives the next
seed as the fixed hash of `(seed, i)`. -/
theorem selector_deterministic_and_steps :
    (∀ (hash : Nat → Nat → Nat) (ps₁ ps₂ : List Nat) (seed₁ seed₂ : Nat),
        ps₁ = ps₂ → seed₁ = seed₂ →
        _selectWinners hash ps₁ seed₁ = _selectWinners hash ps₂ seed₂) ∧
    (∀ (hash : Nat → Nat → Nat) (ps : List Nat) (seed : Nat),
        _selectWinners hash ps seed = selectLoop hash WINNER_COUNT 0 ps seed) ∧
    (∀ (hash : Nat → Nat → Nat) (k i : Nat) (temp : List Nat) (seed : Nat), temp ≠ [] →
        selectLoop hash (k + 1) i temp seed =
          temp.getD (seed % temp.length) 0 ::
            selectLoop hash k (i + 1)
              ((temp.set (seed % temp.length) (temp.getD (temp.length - 1) 0)).dropLast)
              (hash seed i)) := by
  refine ⟨?_, fun _ _ _ => rfl, ?_⟩
  · intro hash ps₁ ps₂ s₁ s₂ hp hs
    rw [hp, hs]
  · intro hash k i temp seed hne
    have h0 : ¬ temp.length = 0 := fun hl => hne (List.length_eq_zero.mp hl)
    rw [selectLoop, if_neg h0]

/-- Witness for the selector theorem at a concrete list and seed. -/
theorem selector_deterministic_and_steps_witness :
    ([10, 20, 30] ≠ ([] : List Nat)) ∧
    selectLoop (fun s i => s + i + 1) 1 0 [10, 20, 30] 4 =
      [10, 20, 30].getD (4 % [10, 20, 30].length) 0 ::
        selectLoop (fun s i => s + i + 1) 0 1
          (([10, 20, 30].set (4 % [10, 20, 30].length)
              ([10, 20, 30].getD ([10, 20, 30].length - 1) 0)).dropLast)
          ((fun s i => s + i + 1) 4 0) :=
  ⟨by decide, selector_deterministic_and_steps.2.2 (fun s i => s + i + 1) 0 0 [10, 20, 30] 4 (by decide)⟩

/-- Successful `drawWinners` run: under the preconditions the call returns a
state where the pool is drawn, the revealed seed is recorded and the five
selected winner records are appended. -/
lemma drawWinners_success {env : FheEnv} {s : RaffleState} {sender pid now c pr : Nat}
    (h_owner : sender = s.owner)
    (h_ex : pid ≤ s.currentPoolId)
    (h_cl : (s.pools pid).isClosed = true)
    (h_wd : (s.pools pid).winnersDrawn = false)
    (h_te : WINNER_COUNT ≤ (s.pools pid).totalEntries)
    (h_h : (s.pools pid).randomSeedHandle ≠ 0)
    (h_rr : (s.pools pid).randomSeedRevealed = false)
    (h_v : env.verifySignatures [(s.pools pid).randomSeedHandle] c pr = true)
    (h_bal : protocolFeeOf (s.pools pid).totalAmount ≤ s.balances s.self) :
    ∃ s', drawWinners env s sender pid now c pr = .ok s' ∧
      (s'.pools pid).winners = (s.pools pid).winners ++
        (_selectWinners env.keccakSeedIter (s.pools pid).participants
            (env.keccakSeedExpand (env.decodeU32 c) pid (s.pools pid).totalEntries)).map
          (fun a => { winnerAddress := a, sharePercentage := percentagePerWinner,
                      rewardAmount := rewardAmountOf (s.pools pid).totalAmount, claimed := false }) ∧
      (s'.pools pid).winnersDrawn = true ∧
      (s'.pools pid).randomSeedRevealed = true ∧
      (s'.pools pid).participants = (s.pools pid).participants := by
  have h1 : ¬ sender ≠ s.owner := fun hc => hc h_owner
  have h2 : ¬ ¬ pid ≤ s.currentPoolId := fun hc => hc h_ex
  have h3 : ¬ ((s.pools pid).isClosed = false ∧ 0 < (s.pools pid).startTime ∧
      0 < (s.pools pid).endTime ∧ (s.pools pid).endTime ≤ now) := by
    intro hc
    rw [h_cl] at hc
    exact absurd hc.1 (by simp)
  have h4 : ¬ (s.pools pid).isClosed = false := by rw [h_cl]; simp
  have h5 : ¬ (s.pools pid).winnersDrawn = true := by rw [h_wd]; simp
  have h6 : ¬ (s.pools pid).totalEntries < WINNER_COUNT := not_lt.2 h_te
  have h8 : ¬ (s.pools pid).randomSeedRevealed = true := by rw [h_rr]; simp
  have h9 : ¬ env.verifySignatures [(s.pools pid).randomSeedHandle] c pr = false := by
    rw [h_v]; simp
  rw [drawWinners, if_neg h1, if_neg h2]
  simp only [if_neg h3, if_neg h4, if_neg h5, if_neg h6, if_neg h_h, if_neg h8, if_neg h9]
  by_cases hf : 0 < protocolFeeOf (s.pools pid).totalAmount
  · have h11 : ¬ s.balances s.self < protocolFeeOf (s.pools pid).totalAmount := not_lt.2 h_bal
    rw [if_pos hf, if_neg h11]
    exact ⟨_, rfl, by simp [setPool], by simp [setPool], by simp [setPool], by simp [setPool]⟩
  · rw [if_neg hf]
    exact ⟨_, rfl, by simp [setPool], by simp [setPool], by simp [setPool], by simp [setPool]⟩

/-- C2: on a closed pool with a committed seed, a valid reveal and at least
`WINNER_COUNT` pairwise-distinct participants, `drawWinners` records exactly
`WINNER_COUNT` winners with pairwise-distinct addresses; and on a closed pool
with fewer than `WINNER_COUNT` entries (and winners not yet drawn),
`generateRandomSeed` fails with the not-enough-participants error, so no seed
handle is ever committed and the reveal step cannot be reached. -/
theorem draw_records_five_distinct_and_guard :
    (∀ (env : FheEnv) (s : RaffleState) (sender pid now c pr : Nat),
        sender = s.owner → pid ≤ s.currentPoolId →
        (s.pools pid).isClosed = true → (s.pools pid).winnersDrawn = false →
        WINNER_COUNT ≤ (s.pools pid).totalEntries →
        (s.pools pid).randomSeedHandle ≠ 0 → (s.pools pid).randomSeedRevealed = false →
        env.verifySignatures [(s.pools pid).randomSeedHandle] c pr = true →
        protocolFeeOf (s.pools pid).totalAmount ≤ s.balances s.self →
        (s.pools pid).winners = [] →
        (s.pools pid).participants.Nodup →
        WINNER_COUNT ≤ (s.pools pid).participants.length →
        ∃ s', drawWinners env s sender pid now c pr = .ok s' ∧
          (s'.pools pid).winners.length = WINNER_COUNT ∧
          ((s'.pools pid).winners.map Winner.winnerAddress).Nodup) ∧
    (∀ (s : RaffleState) (sender pid now freshHandle : Nat),
        sender = s.owner → pid ≤ s.currentPoolId →
        (s.pools pid).isClosed = true → (s.pools pid).winnersDrawn = false →
        (s.pools pid).totalEntries < WINNER_COUNT →
        generateRandomSeed s sender pid now freshHandle = .error "Not enough participants") := by
  constructor
  · intro env s sender pid now c pr h_owner h_ex h_cl h_wd h_te h_h h_rr h_v h_bal h_w0 h_nd h_len
    obtain ⟨s', hok, hw, _, _, _⟩ :=
      drawWinners_success h_owner h_ex h_cl h_wd h_te h_h h_rr h_v h_bal
    refine ⟨s', hok, ?_, ?_⟩
    · rw [hw, h_w0]
      simp [_selectWinners, selectLoop_length]
    · rw [hw, h_w0]
      rw [List.nil_append, List.map_map]
      have hid : (Winner.winnerAddress ∘ fun a =>
          ({ winnerAddress := a, sharePercentage := percentagePerWinner,
             rewardAmount := rewardAmountOf (s.pools pid).totalAmount,
             claimed := false } : Winner)) = id := rfl
      rw [hid, List.map_id]
      exact selectLoop_nodup _ _ _ _ _ h_len h_nd
  · intro s sender pid now fh h_owner h_ex h_cl h_wd h_lt
    have h1 : ¬ sender ≠ s.owner := fun hc => hc h_owner
    have h2 : ¬ ¬ pid ≤ s.currentPoolId := fun hc => hc h_ex
    have h3 : ¬ ((s.pools pid).isClosed = false ∧ 0 < (s.pools pid).startTime ∧
        0 < (s.pools pid).endTime ∧ (s.pools pid).endTime ≤ now) := by
      intro hc
      rw [h_cl] at hc
      exact absurd hc.1 (by simp)
    have h4 : ¬ (s.pools pid).isClosed = false := by rw [h_cl]; simp
    have h5 : ¬ (s.pools pid).winnersDrawn = true := by rw [h_wd]; simp
    rw [generateRandomSeed, if_neg h1, if_neg h2]
    simp only [if_neg h3, if_neg h4, if_neg h5, if_pos h_lt]

/-- Witness for C2 at the concrete fixtures. -/
theorem draw_records_five_distinct_and_guard_witness :
    (sW.pools 0).isClosed = true ∧
    (sW.pools 0).participants.Nodup ∧
    (sFew.pools 0).totalEntries < WINNER_COUNT ∧
    (∃ s', drawWinners envW sW 9 0 30 1 0 = .ok s' ∧
        (s'.pools 0).winners.length = WINNER_COUNT ∧
        ((s'.pools 0).winners.map Winner.winnerAddress).Nodup) ∧
    generateRandomSeed sFew 9 0 30 77 = .error "Not enough participants" :=
  ⟨rfl, by decide, by decide,
   draw_records_five_distinct_and_guard.1 envW sW 9 0 30 1 0 rfl (by decide) rfl rfl
     (by decide) (by decide) rfl rfl (by decide) rfl (by decide) (by decide),
   draw_records_five_distinct_and_guard.2 sFew 9 0 30 77 rfl (by decide) rfl rfl (by decide)⟩

/-- C3: on a seed-committed closed pool, `drawWinners` with a proof that does
not verify against the stored handle fails with the invalid-proof error (an
error result models a full revert, so the handle stays set, the seed stays
unrevealed, no winners are recorded and no funds move), while a call on the
same state with a proof that verifies for the same handle succeeds, reveals
the seed and appends the `WINNER_COUNT` winner records. -/
theorem invalid_proof_rejected_then_valid_succeeds :
    (∀ (env : FheEnv) (s : RaffleState) (sender pid now c pr : Nat),
        sender = s.owner → pid ≤ s.currentPoolId →
        (s.pools pid).isClosed = true → (s.pools pid).winnersDrawn = false →
        WINNER_COUNT ≤ (s.pools pid).totalEntries →
        (s.pools pid).randomSeedHandle ≠ 0 → (s.pools pid).randomSeedRevealed = false →
        env.verifySignatures [(s.pools pid).randomSeedHandle] c pr = false →
        drawWinners env s sender pid now c pr = .error "Invalid decryption proof") ∧
    (∀ (env : FheEnv) (s : RaffleState) (sender pid now c pr : Nat),
        sender = s.owner → pid ≤ s.currentPoolId →
        (s.pools pid).isClosed = true → (s.pools pid).winnersDrawn = false →
        WINNER_COUNT ≤ (s.pools pid).totalEntries →
        (s.pools pid).randomSeedHandle ≠ 0 → (s.pools pid).randomSeedRevealed = false →
        env.verifySignatures [(s.pools pid).randomSeedHandle] c pr = true →
        protocolFeeOf (s.pools pid).totalAmount ≤ s.balances s.self →
        ∃ s', drawWinners env s sender pid now c pr = .ok s' ∧
          (s'.pools pid).winnersDrawn = true ∧
          (s'.pools pid).randomSeedRevealed = true ∧
          (s'.pools pid).winners.length = (s.pools pid).winners.length + WINNER_COUNT) := by
  constructor
  · intro env s sender pid now c pr h_owner h_ex h_cl h_wd h_te h_h h_rr h_v
    have h1 : ¬ sender ≠ s.owner := fun hc => hc h_owner
    have h2 : ¬ ¬ pid ≤ s.currentPoolId := fun hc => hc h_ex
    have h3 : ¬ ((s.pools pid).isClosed = false ∧ 0 < (s.pools pid).startTime ∧
        0 < (s.pools pid).endTime ∧ (s.pools pid).endTime ≤ now) := by
      intro hc
      rw [h_cl] at hc
      exact absurd hc.1 (by simp)
    have h4 : ¬ (s.pools pid).isClosed = false := by rw [h_cl]; simp
    have h5 : ¬ (s.pools pid).winnersDrawn = true := by rw [h_wd]; simp
    have h6 : ¬ (s.pools pid).totalEntries < WINNER_COUNT := not_lt.2 h_te
    have h8 : ¬ (s.pools pid).randomSeedRevealed = true := by rw [h_rr]; simp
    rw [drawWinners, if_neg h1, if_neg h2]
    simp only [if_neg h3, if_neg h4, if_neg h5, if_neg h6, if_neg h_h, if_neg h8, if_pos h_v]
  · intro env s sender pid now c pr h_owner h_ex h_cl h_wd h_te h_h h_rr h_v h_bal
    obtain ⟨s', hok, hw, hwd, hrr, _⟩ :=
      drawWinners_success h_owner h_ex h_cl h_wd h_te h_h h_rr h_v h_bal
    refine ⟨s', hok, hwd, hrr, ?_⟩
    rw [hw]
    simp [_selectWinners, selectLoop_length]

/-- Witness for C3 at the concrete fixtures (cleartexts `2` fail the check,
cleartexts `1` pass it, for the same stored handle). -/
theorem invalid_proof_rejected_then_valid_succeeds_witness :
    envW.verifySignatures [(sW.pools 0).randomSeedHandle] 2 0 = false ∧
    envW.verifySignatures [(sW.pools 0).randomSeedHandle] 1 0 = true ∧
    drawWinners envW sW 9 0 30 2 0 = .error "Invalid decryption proof" ∧
    (∃ s', drawWinners envW sW 9 0 30 1 0 = .ok s' ∧
        (s'.pools 0).winnersDrawn = true ∧
        (s'.pools 0).randomSeedRevealed = true ∧
        (s'.pools 0).winners.length = (sW.pools 0).winners.length + WINNER_COUNT) :=
  ⟨rfl, rfl,
   invalid_proof_rejected_then_valid_succeeds.1 envW sW 9 0 30 2 0 rfl (by decide) rfl rfl
     (by decide) (by decide) rfl rfl,
   invalid_proof_rejected_then_valid_succeeds.2 envW sW 9 0 30 1 0 rfl (by decide) rfl rfl
     (by decide) (by decide) rfl rfl (by decide)⟩

/-- C9: once the current pool has at least one entry and its deadline has
passed, every `enterPool` call reverts with the pool-closed error; because an
error result models a full revert, the caller is not admitted anywhere, no fee
moves, and the auto-close/rollover computed on the way to the failing check
does not persist. -/
theorem enter_after_deadline_reverts :
    ∀ (s : RaffleState) (sender now : Nat),
      0 < (s.pools s.currentPoolId).startTime →
      0 < (s.pools s.currentPoolId).endTime →
      (s.pools s.currentPoolId).endTime ≤ now →
      0 < (s.pools s.currentPoolId).totalEntries →
      enterPool s sender now = .error "Pool is closed" := by
  intro s sender now h1 h2 h3 h4
  simp only [enterPool, _closePool]
  by_cases hcl : (s.pools s.currentPoolId).isClosed = true
  · have hna : ¬ (0 < (s.pools s.currentPoolId).startTime ∧
        0 < (s.pools s.currentPoolId).endTime ∧ (s.pools s.currentPoolId).endTime ≤ now ∧
        (s.pools s.currentPoolId).isClosed = false) := by
      simp [hcl]
    simp only [if_neg hna, if_pos hcl]
  · have hclf : (s.pools s.currentPoolId).isClosed = false := by
      cases hb : (s.pools s.currentPoolId).isClosed
      · rfl
      · exact absurd hb hcl
    have hc4 : 0 < (s.pools s.currentPoolId).startTime ∧
        0 < (s.pools s.currentPoolId).endTime ∧ (s.pools s.currentPoolId).endTime ≤ now ∧
        (s.pools s.currentPoolId).isClosed = false := ⟨h1, h2, h3, hclf⟩
    simp only [if_pos hc4, if_pos h4]
    have hne : s.currentPoolId ≠ s.currentPoolId + 1 := by omega
    simp [setPool, hne]

/-- Witness for C9: entering the expired two-entry pool reverts. -/
theorem enter_after_deadline_reverts_witness :
    0 < (sExpiredBusy.pools sExpiredBusy.currentPoolId).totalEntries ∧
    (sExpiredBusy.pools sExpiredBusy.currentPoolId).endTime ≤ 30 ∧
    enterPool sExpiredBusy 3 30 = .error "Pool is closed" :=
  ⟨by decide, by decide,
   enter_after_deadline_reverts sExpiredBusy 3 30 (by decide) (by decide) (by decide) (by decide)⟩

/-- C5: a participant already recorded in the current pool can never enter it
again: `enterPool` always reverts (first conjunct, any timing), and while the
pool is open and running the revert is precisely the already-entered error
(second conjunct); if instead the fee transfer itself fails, the call reverts
with the transfer error, so (errors being full reverts) no bookkeeping state
is recorded and entry is atomic (third conjunct). -/
theorem enter_single_entry_and_atomic :
    (∀ (s : RaffleState) (sender now : Nat),
        s.hasEnteredPool s.currentPoolId sender = true →
        ∃ e, enterPool s sender now = .error e) ∧
    (∀ (s : RaffleState) (sender now : Nat),
        (s.pools s.currentPoolId).isClosed = false →
        now < (s.pools s.currentPoolId).endTime →
        s.hasEnteredPool s.currentPoolId sender = true →
        enterPool s sender now = .error "Already entered this pool") ∧
    (∀ (s : RaffleState) (sender now : Nat),
        (s.pools s.currentPoolId).isClosed = false →
        s.hasEnteredPool s.currentPoolId sender = false →
        0 < (s.pools s.currentPoolId).startTime →
        now < (s.pools s.currentPoolId).endTime →
        s.balances sender < ENTRY_FEE →
        enterPool s sender now = .error "ERC20: transfer amount exceeds balance") := by
  refine ⟨?_, ?_, ?_⟩
  · intro s sender now h
    simp only [enterPool, _closePool]
    by_cases hcl : (s.pools s.currentPoolId).isClosed = true
    · have hna : ¬ (0 < (s.pools s.currentPoolId).startTime ∧
          0 < (s.pools s.currentPoolId).endTime ∧ (s.pools s.currentPoolId).endTime ≤ now ∧
          (s.pools s.currentPoolId).isClosed = false) := by
        simp [hcl]
      simp only [if_neg hna, if_pos hcl]
      exact ⟨_, rfl⟩
    · have hclf : (s.pools s.currentPoolId).isClosed = false := by
        cases hb : (s.pools s.currentPoolId).isClosed
        · rfl
        · exact absurd hb hcl
      by_cases hexp : 0 < (s.pools s.currentPoolId).startTime ∧
          0 < (s.pools s.currentPoolId).endTime ∧ (s.pools s.currentPoolId).endTime ≤ now
      · have hc4 : 0 < (s.pools s.currentPoolId).startTime ∧
            0 < (s.pools s.currentPoolId).endTime ∧ (s.pools s.currentPoolId).endTime ≤ now ∧
            (s.pools s.currentPoolId).isClosed = false := ⟨hexp.1, hexp.2.1, hexp.2.2, hclf⟩
        by_cases hent : 0 < (s.pools s.currentPoolId).totalEntries
        · simp only [if_pos hc4, if_pos hent]
          have hne : s.currentPoolId ≠ s.currentPoolId + 1 := by omega
          simp [setPool, hne]
        · simp only [if_pos hc4, if_neg hent]
          simp [setPool, h]
      · have hna : ¬ (0 < (s.pools s.currentPoolId).startTime ∧
            0 < (s.pools s.currentPoolId).endTime ∧ (s.pools s.currentPoolId).endTime ≤ now ∧
            (s.pools s.currentPoolId).isClosed = false) := by
          intro hc
          exact hexp ⟨hc.1, hc.2.1, hc.2.2.1⟩
        simp only [if_neg hna]
        simp [hclf, h]
  · intro s sender now hcl hlt h
    simp only [enterPool, _closePool]
    have hna : ¬ (0 < (s.pools s.currentPoolId).startTime ∧
        0 < (s.pools s.currentPoolId).endTime ∧ (s.pools s.currentPoolId).endTime ≤ now ∧
        (s.pools s.currentPoolId).isClosed = false) := by
      intro hc
      exact absurd hc.2.2.1 (not_le.2 hlt)
    simp only [if_neg hna]
    simp [hcl, h]
  · intro s sender now hcl hne hst hlt hbal
    simp only [enterPool, _closePool]
    have hna : ¬ (0 < (s.pools s.currentPoolId).startTime ∧
        0 < (s.pools s.currentPoolId).endTime ∧ (s.pools s.currentPoolId).endTime ≤ now ∧
        (s.pools s.currentPoolId).isClosed = false) := by
      intro hc
      exact absurd hc.2.2.1 (not_le.2 hlt)
    have hst0 : ¬ (s.pools s.currentPoolId).startTime = 0 := by omega
    simp only [if_neg hna]
    simp [hcl, hne, hst0, hlt, hbal]

/-- Witness for C5: double entry and failing-transfer entry at the fixtures. -/
theorem enter_single_entry_and_atomic_witness :
    sOpen.hasEnteredPool sOpen.currentPoolId 1 = true ∧
    sOpen.balances 2 < ENTRY_FEE ∧
    (∃ e, enterPool sOpen 1 50 = .error e) ∧
    enterPool sOpen 1 50 = .error "Already entered this pool" ∧
    enterPool sOpen 2 50 = .error "ERC20: transfer amount exceeds balance" :=
  ⟨by decide, by decide,
   enter_single_entry_and_atomic.1 sOpen 1 50 (by decide),
   enter_single_entry_and_atomic.2.1 sOpen 1 50 (by decide) (by decide) (by decide),
   enter_single_entry_and_atomic.2.2 sOpen 2 50 (by decide) (by decide) (by decide) (by decide)
     (by decide)⟩

/-- C6 counterexample: `closePool` is neither callable by anyone nor a no-op
on an already-closed pool.  On the concrete fixture, the owner calling it on
the closed pool 0 FAILS with the already-closed error (instead of being a
harmless no-op), and a non-owner caller on the very same pool fails with the
only-owner error (so the outcome set is not restricted to success / no-op /
pool-still-open). -/
theorem closePool_anyone_idempotent_cex :
    closePool sW 9 0 30 = .error "Pool already closed" ∧
    closePool sW 4 0 30 = .error "Only owner can call this function" :=
  ⟨rfl, rfl⟩

/-- C6 amended: `closePool` is owner-only (any other caller gets the
only-owner error); for the owner it fails with the already-closed error on an
already-closed pool (not a no-op), and with the still-active error whenever
the current time is before the deadline. -/
theorem closePool_owner_gated_amended :
    (∀ (s : RaffleState) (sender pid now : Nat), sender ≠ s.owner →
        closePool s sender pid now = .error "Only owner can call this function") ∧
    (∀ (s : RaffleState) (pid now : Nat), pid ≤ s.currentPoolId →
        0 < (s.pools pid).startTime → 0 < (s.pools pid).endTime →
        (s.pools pid).endTime ≤ now → (s.pools pid).isClosed = true →
        closePool s s.owner pid now = .error "Pool already closed") ∧
    (∀ (s : RaffleState) (pid now : Nat), pid ≤ s.currentPoolId →
        0 < (s.pools pid).startTime → now < (s.pools pid).endTime →
        closePool s s.owner pid now = .error "Pool is still active") := by
  refine ⟨?_, ?_, ?_⟩
  · intro s sender pid now h
    simp only [closePool, if_pos h]
  · intro s pid now hex hst het hnow hcl
    have h1 : ¬ s.owner ≠ s.owner := fun hc => hc rfl
    have h2 : ¬ ¬ pid ≤ s.currentPoolId := fun hc => hc hex
    have h3 : ¬ ¬ 0 < (s.pools pid).startTime := fun hc => hc hst
    have h4 : ¬ ¬ 0 < (s.pools pid).endTime := fun hc => hc het
    have h5 : ¬ now < (s.pools pid).endTime := not_lt.2 hnow
    simp only [closePool, if_neg h1, if_neg h2, if_neg h3, if_neg h4, if_neg h5, if_pos hcl]
  · intro s pid now hex hst hnow
    have h1 : ¬ s.owner ≠ s.owner := fun hc => hc rfl
    have h2 : ¬ ¬ pid ≤ s.currentPoolId := fun hc => hc hex
    have h3 : ¬ ¬ 0 < (s.pools pid).startTime := fun hc => hc hst
    have het : 0 < (s.pools pid).endTime := by omega
    have h4 : ¬ ¬ 0 < (s.pools pid).endTime := fun hc => hc het
    simp only [closePool, if_neg h1, if_neg h2, if_neg h3, if_neg h4, if_pos hnow]

/-- Witness for the amended C6 at the concrete fixtures. -/
theorem closePool_owner_gated_amended_witness :
    (4 ≠ sW.owner) ∧ (sW.pools 0).isClosed = true ∧ 50 < (sOpen.pools 0).endTime ∧
    closePool sW 4 0 30 = .error "Only owner can call this function" ∧
    closePool sW sW.owner 0 30 = .error "Pool already closed" ∧
    closePool sOpen sOpen.owner 0 50 = .error "Pool is still active" :=
  ⟨by decide, rfl, by decide,
   closePool_owner_gated_amended.1 sW 4 0 30 (by decide),
   closePool_owner_gated_amended.2.1 sW 0 30 (by decide) (by decide) (by decide) (by decide) rfl,
   closePool_owner_gated_amended.2.2 sOpen 0 50 (by decide) (by decide) (by decide)⟩

/-- C7: closing the current pool after its deadline has two modes: with zero
entries the pool merely gets a fresh deadline `now + POOL_DURATION` and stays
open under the same `currentPoolId`; with at least one entry it is closed for
good and a fresh pool under the next sequential id becomes current; and
`closePool` fails with the still-active error whenever `now` is before the
deadline. -/
theorem closePool_two_modes :
    (∀ (s : RaffleState) (now : Nat),
        0 < (s.pools s.currentPoolId).startTime → 0 < (s.pools s.currentPoolId).endTime →
        (s.pools s.currentPoolId).endTime ≤ now →
        (s.pools s.currentPoolId).isClosed = false →
        (s.pools s.currentPoolId).totalEntries = 0 →
        ∃ s', closePool s s.owner s.currentPoolId now = .ok s' ∧
          s'.currentPoolId = s.currentPoolId ∧
          (s'.pools s.currentPoolId).isClosed = false ∧
          (s'.pools s.currentPoolId).endTime = now + POOL_DURATION ∧
          (s'.pools s.currentPoolId).participants = (s.pools s.currentPoolId).participants) ∧
    (∀ (s : RaffleState) (now : Nat),
        0 < (s.pools s.currentPoolId).startTime → 0 < (s.pools s.currentPoolId).endTime →
        (s.pools s.currentPoolId).endTime ≤ now →
        (s.pools s.currentPoolId).isClosed = false →
        0 < (s.pools s.currentPoolId).totalEntries →
        ∃ s', closePool s s.owner s.currentPoolId now = .ok s' ∧
          s'.currentPoolId = s.currentPoolId + 1 ∧
          (s'.pools s.currentPoolId).isClosed = true ∧
          s'.pools (s.currentPoolId + 1) = newPool (s.currentPoolId + 1)) ∧
    (∀ (s : RaffleState) (pid now : Nat), pid ≤ s.currentPoolId →
        0 < (s.pools pid).startTime → now < (s.pools pid).endTime →
        closePool s s.owner pid now = .error "Pool is still active") := by
  refine ⟨?_, ?_, ?_⟩
  · intro s now hst het hnow hcl hzero
    have h1 : ¬ s.owner ≠ s.owner := fun hc => hc rfl
    have h2 : ¬ ¬ s.currentPoolId ≤ s.currentPoolId := fun hc => hc le_rfl
    have h3 : ¬ ¬ 0 < (s.pools s.currentPoolId).startTime := fun hc => hc hst
    have h4 : ¬ ¬ 0 < (s.pools s.currentPoolId).endTime := fun hc => hc het
    have h5 : ¬ now < (s.pools s.currentPoolId).endTime := not_lt.2 hnow
    have h6 : ¬ (s.pools s.currentPoolId).isClosed = true := by simp [hcl]
    have h7 : ¬ 0 < (s.pools s.currentPoolId).totalEntries := by omega
    simp only [closePool, _closePool, if_neg h1, if_neg h2, if_neg h3, if_neg h4, if_neg h5,
      if_neg h6, if_neg h7]
    exact ⟨_, rfl, rfl, by simp [setPool], by simp [setPool], by simp [setPool]⟩
  · intro s now hst het hnow hcl hpos
    have h1 : ¬ s.owner ≠ s.owner := fun hc => hc rfl
    have h2 : ¬ ¬ s.currentPoolId ≤ s.currentPoolId := fun hc => hc le_rfl
    have h3 : ¬ ¬ 0 < (s.pools s.currentPoolId).startTime := fun hc => hc hst
    have h4 : ¬ ¬ 0 < (s.pools s.currentPoolId).endTime := fun hc => hc het
    have h5 : ¬ now < (s.pools s.currentPoolId).endTime := not_lt.2 hnow
    have h6 : ¬ (s.pools s.currentPoolId).isClosed = true := by simp [hcl]
    have hne : s.currentPoolId ≠ s.currentPoolId + 1 := by omega
    simp only [closePool, _closePool, if_neg h1, if_neg h2, if_neg h3, if_neg h4, if_neg h5,
      if_neg h6, if_pos hpos]
    exact ⟨_, rfl, rfl, by simp [setPool, hne], by simp [setPool]⟩
  · intro s pid now hex hst hnow
    have h1 : ¬ s.owner ≠ s.owner := fun hc => hc rfl
    have h2 : ¬ ¬ pid ≤ s.currentPoolId := fun hc => hc hex
    have h3 : ¬ ¬ 0 < (s.pools pid).startTime := fun hc => hc hst
    have het : 0 < (s.pools pid).endTime := by omega
    have h4 : ¬ ¬ 0 < (s.pools pid).endTime := fun hc => hc het
    simp only [closePool, if_neg h1, if_neg h2, if_neg h3, if_neg h4, if_pos hnow]

/-- Witness for C7: extend-on-empty, rollover-on-busy and still-active error
at the concrete fixtures. -/
theorem closePool_two_modes_witness :
    (sExpiredEmpty.pools 0).totalEntries = 0 ∧
    0 < (sExpiredBusy.pools 0).totalEntries ∧
    (∃ s', closePool sExpiredEmpty sExpiredEmpty.owner 0 30 = .ok s' ∧
        s'.currentPoolId = sExpiredEmpty.currentPoolId ∧
        (s'.pools sExpiredEmpty.currentPoolId).isClosed = false ∧
        (s'.pools sExpiredEmpty.currentPoolId).endTime = 30 + POOL_DURATION ∧
        (s'.pools sExpiredEmpty.currentPoolId).participants =
          (sExpiredEmpty.pools sExpiredEmpty.currentPoolId).participants) ∧
    (∃ s', closePool sExpiredBusy sExpiredBusy.owner 0 30 = .ok s' ∧
        s'.currentPoolId = sExpiredBusy.currentPoolId + 1 ∧
        (s'.pools sExpiredBusy.currentPoolId).isClosed = true ∧
        s'.pools (sExpiredBusy.currentPoolId + 1) = newPool (sExpiredBusy.currentPoolId + 1)) ∧
    closePool sOpen sOpen.owner 0 50 = .error "Pool is still active" :=
  ⟨rfl, by decide,
   closePool_two_modes.1 sExpiredEmpty 30 (by decide) (by decide) (by decide) rfl rfl,
   closePool_two_modes.2.1 sExpiredBusy 30 (by decide) (by decide) (by decide) rfl (by decide),
   closePool_two_modes.2.2 sOpen 0 50 (by decide) (by decide) (by decide)⟩

/-- Any index returned by the winner search is in bounds. -/
lemma findWinnerIdx_lt {sender : Nat} : ∀ {ws : List Winner} {i : Nat},
    findWinnerIdx sender ws = some i → i < ws.length := by
  intro ws
  induction ws with
  | nil => intro i h; simp [findWinnerIdx] at h
  | cons w t ih =>
    intro i h
    rw [findWinnerIdx] at h
    split_ifs at h with hw
    · cases h
      simp
    · cases hfi : findWinnerIdx sender t with
      | none => rw [hfi] at h; simp at h
      | some j =>
        rw [hfi] at h
        have h2 : j + 1 = i := by simpa using h
        subst h2
        have := ih hfi
        simp
        omega

/-- Reading back the slot just written. -/
lemma getD_set_self {α : Type} (d : α) : ∀ (l : List α) (i : Nat) (x : α), i < l.length →
    (l.set i x).getD i d = x := by
  intro l
  induction l with
  | nil => intro i x h; simp at h
  | cons a t ih =>
    intro i x h
    cases i with
    | zero => simp [List.set]
    | succ j =>
      simp only [List.set, List.getD_cons_succ]
      exact ih j x (by simpa using h)

/-- Setting only the `claimed` flag of one winner record does not change which
index the winner search returns (the addresses are untouched). -/
lemma findWinnerIdx_set_claimed {sender : Nat} : ∀ (ws : List Winner) (i : Nat), i < ws.length →
    findWinnerIdx sender (ws.set i { ws.getD i defaultWinner with claimed := true }) =
      findWinnerIdx sender ws := by
  intro ws
  induction ws with
  | nil => intro i h; simp at h
  | cons w t ih =>
    intro i h
    cases i with
    | zero =>
      simp only [List.set, List.getD_cons_zero]
      rw [findWinnerIdx, findWinnerIdx]
    | succ j =>
      simp only [List.set, List.getD_cons_succ]
      rw [findWinnerIdx, findWinnerIdx]
      rw [ih j (by simpa using h)]

/-- Reading the `pools` mapping back at the slot just written. -/
lemma setPool_self (ps : Nat → Pool) (pid : Nat) (p : Pool) : setPool ps pid p pid = p := by
  simp [setPool]

/-- Reading the `pools` mapping at any other slot. -/
lemma setPool_other (ps : Nat → Pool) (pid q : Nat) (p : Pool) (h : q ≠ pid) :
    setPool ps pid p q = ps q := by
  simp [setPool, h]

/-- A claim by a winner whose `claimed` flag is already set fails. -/
lemma claimReward_on_claimed (s : RaffleState) (sender pid i : Nat)
    (h1 : pid ≤ s.currentPoolId)
    (hwd : (s.pools pid).winnersDrawn = true)
    (hfi : findWinnerIdx sender (s.pools pid).winners = some i)
    (hclm : ((s.pools pid).winners.getD i defaultWinner).claimed = true) :
    claimReward s sender pid = .error "Reward already claimed" := by
  have hh1 : ¬ ¬ pid ≤ s.currentPoolId := fun hc => hc h1
  have hh2 : ¬ (s.pools pid).winnersDrawn = false := by rw [hwd]; simp
  simp only [claimReward, claimRewardGen, if_neg hh1, if_neg hh2, hfi]
  simp only [if_pos hclm]

/-- C4: in `claimReward` the winner's `claimed` flag is set strictly before
the outgoing transfer is invoked: for an arbitrary transfer primitive the call
reduces to that primitive applied to a state in which the flag is already
`true` (so even a re-entrant transfer sees `claimed = true`); and after any
successful claim, a second `claimReward` by the same winner fails with the
already-claimed error, hence no second transfer is performed. -/
theorem claim_flag_before_transfer_and_idempotent :
    (∀ (transferOut : RaffleState → Nat → Nat → Except String RaffleState)
        (s : RaffleState) (sender pid i : Nat),
        pid ≤ s.currentPoolId →
        (s.pools pid).winnersDrawn = true →
        findWinnerIdx sender (s.pools pid).winners = some i →
        ((s.pools pid).winners.getD i defaultWinner).claimed = false →
        ∃ s2, claimRewardGen transferOut s sender pid =
            transferOut s2 sender ((s.pools pid).winners.getD i defaultWinner).rewardAmount ∧
          ((s2.pools pid).winners.getD i defaultWinner).claimed = true) ∧
    (∀ (s : RaffleState) (sender pid : Nat) (s' : RaffleState),
        claimReward s sender pid = .ok s' →
        claimReward s' sender pid = .error "Reward already claimed") := by
  constructor
  · intro transferOut s sender pid i hex hwd hfi hcl
    have h1 : ¬ ¬ pid ≤ s.currentPoolId := fun hc => hc hex
    have h2 : ¬ (s.pools pid).winnersDrawn = false := by rw [hwd]; simp
    have hcl2 : ¬ ((s.pools pid).winners.getD i defaultWinner).claimed = true := by
      rw [hcl]; simp
    have hlt := findWinnerIdx_lt hfi
    simp only [claimRewardGen, if_neg h1, if_neg h2, hfi]
    simp only [if_neg hcl2]
    refine ⟨_, rfl, ?_⟩
    show (((setPool s.pools pid { s.pools pid with
        winners := (s.pools pid).winners.set i { (s.pools pid).winners.getD i defaultWinner with
          claimed := true } }) pid).winners.getD i defaultWinner).claimed = true
    rw [setPool_self]
    show (((s.pools pid).winners.set i { (s.pools pid).winners.getD i defaultWinner with
        claimed := true }).getD i defaultWinner).claimed = true
    rw [getD_set_self defaultWinner _ _ _ hlt]
  · intro s sender pid s' h
    simp only [claimReward, claimRewardGen, tokenTransferOut] at h
    by_cases h1 : pid ≤ s.currentPoolId
    case neg =>
      rw [if_pos h1] at h
      exact Except.noConfusion h
    rw [if_neg (not_not_intro h1)] at h
    by_cases h2 : (s.pools pid).winnersDrawn = false
    case pos =>
      rw [if_pos h2] at h
      exact Except.noConfusion h
    rw [if_neg h2] at h
    have hwd : (s.pools pid).winnersDrawn = true := by
      cases hb : (s.pools pid).winnersDrawn
      · exact absurd hb h2
      · rfl
    cases hfi : findWinnerIdx sender (s.pools pid).winners with
    | none =>
      rw [hfi] at h
      exact Except.noConfusion h
    | some i =>
      rw [hfi] at h
      simp only [] at h
      by_cases hclm : ((s.pools pid).winners.getD i defaultWinner).claimed = true
      case pos =>
        rw [if_pos hclm] at h
        exact Except.noConfusion h
      rw [if_neg hclm] at h
      by_cases hbal : s.balances s.self < ((s.pools pid).winners.getD i defaultWinner).rewardAmount
      case pos =>
        rw [if_pos hbal] at h
        exact Except.noConfusion h
      rw [if_neg hbal] at h
      injection h with hs
      rw [← hs]
      have hlt := findWinnerIdx_lt hfi
      refine claimReward_on_claimed _ sender pid i h1 ?_ ?_ ?_
      · show ((setPool s.pools pid { s.pools pid with
            winners := (s.pools pid).winners.set i { (s.pools pid).winners.getD i defaultWinner with
              claimed := true } }) pid).winnersDrawn = true
        rw [setPool_self]
        exact hwd
      · show findWinnerIdx sender ((setPool s.pools pid { s.pools pid with
            winners := (s.pools pid).winners.set i { (s.pools pid).winners.getD i defaultWinner with
              claimed := true } }) pid).winners = some i
        rw [setPool_self]
        show findWinnerIdx sender ((s.pools pid).winners.set i {
            (s.pools pid).winners.getD i defaultWinner with claimed := true }) = some i
        rw [findWinnerIdx_set_claimed _ _ hlt]
        exact hfi
      · show (((setPool s.pools pid { s.pools pid with
            winners := (s.pools pid).winners.set i { (s.pools pid).winners.getD i defaultWinner with
              claimed := true } }) pid).winners.getD i defaultWinner).claimed = true
        rw [setPool_self]
        show (((s.pools pid).winners.set i { (s.pools pid).winners.getD i defaultWinner with
            claimed := true }).getD i defaultWinner).claimed = true
        rw [getD_set_self defaultWinner _ _ _ hlt]

/-- Witness for C4: on the drawn fixture pool, claiming marks the flag before
the transfer, and a second claim by winner 1 fails. -/
theorem claim_flag_before_transfer_and_idempotent_witness :
    findWinnerIdx 1 (sDrawn.pools 0).winners = some 0 ∧
    ((sDrawn.pools 0).winners.getD 0 defaultWinner).claimed = false ∧
    (∃ s2, claimRewardGen tokenTransferOut sDrawn 1 0 =
        tokenTransferOut s2 1 ((sDrawn.pools 0).winners.getD 0 defaultWinner).rewardAmount ∧
      ((s2.pools 0).winners.getD 0 defaultWinner).claimed = true) ∧
    (∃ s', claimReward sDrawn 1 0 = .ok s' ∧
        claimReward s' 1 0 = .error "Reward already claimed") :=
  ⟨rfl, rfl,
   claim_flag_before_transfer_and_idempotent.1 tokenTransferOut sDrawn 1 0 0
     (by decide) rfl rfl rfl,
   ⟨_, rfl, claim_flag_before_transfer_and_idempotent.2 sDrawn 1 0 _ rfl⟩⟩

/-- Effects of `_closePool` when the pool has entries (rollover). -/
lemma _closePool_pos {s : RaffleState} {pid now : Nat} (hpid : pid ≤ s.currentPoolId)
    (he : 0 < (s.pools pid).totalEntries) :
    (_closePool s pid now).currentPoolId = s.currentPoolId + 1 ∧
    (_closePool s pid now).pools pid = { s.pools pid with isClosed := true } ∧
    (_closePool s pid now).pools (s.currentPoolId + 1) = newPool (s.currentPoolId + 1) ∧
    (∀ q, q ≠ pid → q ≠ s.currentPoolId + 1 → (_closePool s pid now).pools q = s.pools q) ∧
    (_closePool s pid now).hasEnteredPool = s.hasEnteredPool ∧
    (_closePool s pid now).balances = s.balances := by
  have hne : pid ≠ s.currentPoolId + 1 := by omega
  refine ⟨?_, ?_, ?_, ?_, ?_, ?_⟩
  · simp [_closePool, he]
  · simp only [_closePool, if_pos he]
    rw [setPool_other _ _ _ _ hne, setPool_self]
  · simp only [_closePool, if_pos he]
    rw [setPool_self]
  · intro q hq1 hq2
    simp only [_closePool, if_pos he]
    rw [setPool_other _ _ _ _ hq2, setPool_other _ _ _ _ hq1]
  · simp [_closePool, he]
  · simp [_closePool, he]

/-- Effects of `_closePool` when the pool has no entries (extension). -/
lemma _closePool_zero {s : RaffleState} {pid now : Nat}
    (he : ¬ 0 < (s.pools pid).totalEntries) :
    (_closePool s pid now).currentPoolId = s.currentPoolId ∧
    (_closePool s pid now).pools pid =
      { s.pools pid with isClosed := false, endTime := now + POOL_DURATION } ∧
    (∀ q, q ≠ pid → (_closePool s pid now).pools q = s.pools q) ∧
    (_closePool s pid now).hasEnteredPool = s.hasEnteredPool ∧
    (_closePool s pid now).balances = s.balances := by
  refine ⟨?_, ?_, ?_, ?_, ?_⟩
  · simp [_closePool, he]
  · simp only [_closePool, if_neg he]
    rw [setPool_self]
  · intro q hq
    simp only [_closePool, if_neg he]
    rw [setPool_other _ _ _ _ hq]
  · simp [_closePool, he]
  · simp [_closePool, he]

/-- A successful `closePool` run: caller is the owner, the pool exists and was
open, and the result is exactly `_closePool`. -/
lemma closePool_ok_cases {s : RaffleState} {sender pid now : Nat} {s' : RaffleState}
    (h : closePool s sender pid now = .ok s') :
    sender = s.owner ∧ pid ≤ s.currentPoolId ∧ (s.pools pid).isClosed = false ∧
    s' = _closePool s pid now := by
  simp only [closePool] at h
  split_ifs at h with h1 h2 h3 h4 h5 h6
  injection h with hs
  refine ⟨not_not.mp h1, h2, ?_, hs.symm⟩
  cases hb : (s.pools pid).isClosed
  · rfl
  · exact absurd hb h6

/-- A successful `enterPool` run never changes the current pool id and only
modifies the current pool record. -/
lemma enterPool_ok_effects {s : RaffleState} {sender now : Nat} {s' : RaffleState}
    (h : enterPool s sender now = .ok s') :
    s'.currentPoolId = s.currentPoolId ∧
    (∀ q, q ≠ s.currentPoolId → s'.pools q = s.pools q) := by
  simp only [enterPool, _closePool] at h
  split_ifs at h
  all_goals first
    | exact Except.noConfusion h
    | (injection h with hs
       rw [← hs]
       exact ⟨rfl, fun q hq => by simp [setPool, hq]⟩)
    | (exfalso; simp_all [setPool])

/-- A successful `generateRandomSeed` run: the target pool ends up closed with
its admission bookkeeping untouched, and either nothing else changed (the pool
was already closed) or the call auto-closed the current pool and rolled over
to a fresh pool under the next id. -/
lemma generateRandomSeed_ok_effects {s : RaffleState} {sender pid now fh : Nat} {s' : RaffleState}
    (hC : ClosedInv s)
    (h : generateRandomSeed s sender pid now fh = .ok s') :
    pid ≤ s.currentPoolId ∧
    (s'.pools pid).isClosed = true ∧
    (s'.pools pid).participants = (s.pools pid).participants ∧
    (s'.pools pid).totalEntries = (s.pools pid).totalEntries ∧
    (s'.pools pid).totalAmount = (s.pools pid).totalAmount ∧
    ((s'.currentPoolId = s.currentPoolId ∧ ∀ q, q ≠ pid → s'.pools q = s.pools q) ∨
     (pid = s.currentPoolId ∧ s'.currentPoolId = s.currentPoolId + 1 ∧
      s'.pools (s.currentPoolId + 1) = newPool (s.currentPoolId + 1) ∧
      (∀ q, q ≠ pid → q ≠ s.currentPoolId + 1 → s'.pools q = s.pools q))) := by
  simp only [generateRandomSeed] at h
  by_cases how : sender ≠ s.owner
  · rw [if_pos how] at h
    exact Except.noConfusion h
  rw [if_neg how] at h
  by_cases hex : ¬ pid ≤ s.currentPoolId
  · rw [if_pos hex] at h
    exact Except.noConfusion h
  rw [if_neg hex] at h
  have hpid : pid ≤ s.currentPoolId := not_not.mp hex
  by_cases hauto : (s.pools pid).isClosed = false ∧ 0 < (s.pools pid).startTime ∧
      0 < (s.pools pid).endTime ∧ (s.pools pid).endTime ≤ now
  · have hpc : pid = s.currentPoolId := by
      rcases Nat.lt_or_ge pid s.currentPoolId with hlt | hge
      · have hcl := hC pid hlt
        rw [hcl] at hauto
        exact absurd hauto.1 (by simp)
      · omega
    rw [if_pos hauto] at h
    simp only [_closePool] at h
    by_cases hent : 0 < (s.pools pid).totalEntries
    · rw [if_pos hent] at h
      have hne2 : pid ≠ s.currentPoolId + 1 := by omega
      have hne3 : s.currentPoolId + 1 ≠ pid := Ne.symm hne2
      simp [setPool, hne2] at h
      split_ifs at h
      injection h with hs
      rw [← hs]
      refine ⟨hpid, ?_, ?_, ?_, ?_, Or.inr ⟨hpc, rfl, ?_, ?_⟩⟩
      · simp [setPool]
      · simp [setPool]
      · simp [setPool]
      · simp [setPool]
      · simp [setPool, hne3]
      · intro q hq1 hq2
        simp [setPool, hq1, hq2]
    · rw [if_neg hent] at h
      simp [setPool] at h
  · rw [if_neg hauto] at h
    split_ifs at h with hd1 hd2 hd3 hd4
    have hclT : (s.pools pid).isClosed = true := by
      cases hb : (s.pools pid).isClosed
      · exact absurd hb hd1
      · rfl
    injection h with hs
    rw [← hs]
    refine ⟨hpid, ?_, ?_, ?_, ?_, Or.inl ⟨rfl, ?_⟩⟩
    · simp [setPool, hclT]
    · simp [setPool]
    · simp [setPool]
    · simp [setPool]
    · intro q hq
      simp [setPool, hq]

/-- A successful `drawWinners` run: the target pool stays closed with its
admission bookkeeping untouched (only reveal/winner fields and balances
change), and either nothing else changed or the call auto-closed the current
pool and rolled over to a fresh pool under the next id. -/
lemma drawWinners_ok_effects {env : FheEnv} {s : RaffleState} {sender pid now c pr : Nat}
    {s' : RaffleState} (hC : ClosedInv s)
    (h : drawWinners env s sender pid now c pr = .ok s') :
    pid ≤ s.currentPoolId ∧
    (s'.pools pid).isClosed = true ∧
    (s'.pools pid).participants = (s.pools pid).participants ∧
    (s'.pools pid).totalEntries = (s.pools pid).totalEntries ∧
    (s'.pools pid).totalAmount = (s.pools pid).totalAmount ∧
    ((s'.currentPoolId = s.currentPoolId ∧ ∀ q, q ≠ pid → s'.pools q = s.pools q) ∨
     (pid = s.currentPoolId ∧ s'.currentPoolId = s.currentPoolId + 1 ∧
      s'.pools (s.currentPoolId + 1) = newPool (s.currentPoolId + 1) ∧
      (∀ q, q ≠ pid → q ≠ s.currentPoolId + 1 → s'.pools q = s.pools q))) := by
  simp only [drawWinners] at h
  by_cases how : sender ≠ s.owner
  · rw [if_pos how] at h
    exact Except.noConfusion h
  rw [if_neg how] at h
  by_cases hex : ¬ pid ≤ s.currentPoolId
  · rw [if_pos hex] at h
    exact Except.noConfusion h
  rw [if_neg hex] at h
  have hpid : pid ≤ s.currentPoolId := not_not.mp hex
  by_cases hauto : (s.pools pid).isClosed = false ∧ 0 < (s.pools pid).startTime ∧
      0 < (s.pools pid).endTime ∧ (s.pools pid).endTime ≤ now
  · have hpc : pid = s.currentPoolId := by
      rcases Nat.lt_or_ge pid s.currentPoolId with hlt | hge
      · have hcl := hC pid hlt
        rw [hcl] at hauto
        exact absurd hauto.1 (by simp)
      · omega
    rw [if_pos hauto] at h
    simp only [_closePool] at h
    by_cases hent : 0 < (s.pools pid).totalEntries
    · rw [if_pos hent] at h
      have hne2 : pid ≠ s.currentPoolId + 1 := by omega
      have hne3 : s.currentPoolId + 1 ≠ pid := Ne.symm hne2
      simp [setPool, hne2] at h
      split_ifs at h
      all_goals (
        injection h with hs
        rw [← hs]
        exact ⟨hpid, by simp [setPool], by simp [setPool], by simp [setPool], by simp [setPool],
          Or.inr ⟨hpc, rfl, by simp [setPool, hne3],
            fun q hq1 hq2 => by simp [setPool, hq1, hq2]⟩⟩)
    · rw [if_neg hent] at h
      simp [setPool] at h
  · rw [if_neg hauto] at h
    by_cases hcl : (s.pools pid).isClosed = false
    · rw [if_pos hcl] at h
      exact Except.noConfusion h
    rw [if_neg hcl] at h
    have hclT : (s.pools pid).isClosed = true := by
      cases hb : (s.pools pid).isClosed
      · exact absurd hb hcl
      · rfl
    split_ifs at h
    all_goals (
      injection h with hs
      rw [← hs]
      exact ⟨hpid, by simp [setPool, hclT], by simp [setPool], by simp [setPool], by simp [setPool],
        Or.inl ⟨rfl, fun q hq => by simp [setPool, hq]⟩⟩)

/-- A successful claim only flips a `claimed` flag and moves balances. -/
lemma claimReward_ok_effects {s : RaffleState} {sender pid : Nat} {s' : RaffleState}
    (h : claimReward s sender pid = .ok s') :
    pid ≤ s.currentPoolId ∧
    s'.currentPoolId = s.currentPoolId ∧
    (∀ q, q ≠ pid → s'.pools q = s.pools q) ∧
    (s'.pools pid).isClosed = (s.pools pid).isClosed ∧
    (s'.pools pid).participants = (s.pools pid).participants ∧
    (s'.pools pid).totalEntries = (s.pools pid).totalEntries ∧
    (s'.pools pid).totalAmount = (s.pools pid).totalAmount := by
  simp only [claimReward, claimRewardGen, tokenTransferOut] at h
  by_cases h1 : pid ≤ s.currentPoolId
  case neg =>
    rw [if_pos h1] at h
    exact Except.noConfusion h
  rw [if_neg (not_not_intro h1)] at h
  by_cases h2 : (s.pools pid).winnersDrawn = false
  case pos =>
    rw [if_pos h2] at h
    exact Except.noConfusion h
  rw [if_neg h2] at h
  cases hfi : findWinnerIdx sender (s.pools pid).winners with
  | none =>
    rw [hfi] at h
    exact Except.noConfusion h
  | some i =>
    rw [hfi] at h
    simp only [] at h
    split_ifs at h
    injection h with hs
    rw [← hs]
    exact ⟨h1, rfl, fun q hq => by simp [setPool, hq], by simp [setPool], by simp [setPool],
      by simp [setPool], by simp [setPool]⟩

/-- Updating the fee recipient does not touch pools or the current id. -/
lemma setProtocolFeeRecipient_ok_effects {s : RaffleState} {sender nr : Nat} {s' : RaffleState}
    (h : setProtocolFeeRecipient s sender nr = .ok s') :
    s'.pools = s.pools ∧ s'.currentPoolId = s.currentPoolId := by
  simp only [setProtocolFeeRecipient] at h
  split_ifs at h
  injection h with hs
  rw [← hs]
  exact ⟨rfl, rfl⟩

/-- One successful transaction: the current id never decreases, archived pools
(ids below the pre-state current id) keep their closed flag and admission data,
participant lists change only in the current pool, and both invariants are
preserved. -/
lemma step_preserves {env : FheEnv} {s s' : RaffleState}
    (hC : ClosedInv s) (hF : FreshInv s) (hs : Step env s s') :
    s.currentPoolId ≤ s'.currentPoolId ∧
    (∀ pid, pid < s.currentPoolId →
        (s'.pools pid).isClosed = true ∧
        (s'.pools pid).participants = (s.pools pid).participants ∧
        (s'.pools pid).totalEntries = (s.pools pid).totalEntries ∧
        (s'.pools pid).totalAmount = (s.pools pid).totalAmount) ∧
    (∀ pid, pid ≠ s.currentPoolId → (s'.pools pid).participants = (s.pools pid).participants) ∧
    ClosedInv s' ∧ FreshInv s' := by
  cases hs with
  | enter sender now h =>
    obtain ⟨hcur, hoff⟩ := enterPool_ok_effects h
    refine ⟨by omega, ?_, ?_, ?_, ?_⟩
    · intro pid hlt
      rw [hoff pid (by omega)]
      exact ⟨hC pid hlt, rfl, rfl, rfl⟩
    · intro pid hne
      rw [hoff pid hne]
    · intro pid hlt
      rw [hcur] at hlt
      rw [hoff pid (by omega)]
      exact hC pid hlt
    · intro pid hlt
      rw [hcur] at hlt
      rw [hoff pid (by omega)]
      exact hF pid hlt
  | close sender pid now h =>
    obtain ⟨hown, hpid, hopen, hs2⟩ := closePool_ok_cases h
    have hpc : pid = s.currentPoolId := by
      rcases Nat.lt_or_ge pid s.currentPoolId with hlt | hge
      · rw [hC pid hlt] at hopen
        exact Bool.noConfusion hopen
      · omega
    subst hpc
    subst hs2
    by_cases hent : 0 < (s.pools s.currentPoolId).totalEntries
    · obtain ⟨hcur, hself, hnew, hoff, _, _⟩ := @_closePool_pos s s.currentPoolId now le_rfl hent
      refine ⟨by omega, ?_, ?_, ?_, ?_⟩
      · intro q hlt
        rw [hoff q (by omega) (by omega)]
        exact ⟨hC q hlt, rfl, rfl, rfl⟩
      · intro q hne
        by_cases hq2 : q = s.currentPoolId + 1
        · subst hq2
          rw [hnew, hF (s.currentPoolId + 1) (by omega)]
          rfl
        · rw [hoff q hne hq2]
      · intro q hlt
        rw [hcur] at hlt
        by_cases hq1 : q = s.currentPoolId
        · subst hq1
          rw [hself]
        · rw [hoff q hq1 (by omega)]
          exact hC q (by omega)
      · intro q hlt
        rw [hcur] at hlt
        rw [hoff q (by omega) (by omega)]
        exact hF q (by omega)
    · obtain ⟨hcur, hself, hoff, _, _⟩ := @_closePool_zero s s.currentPoolId now hent
      refine ⟨by omega, ?_, ?_, ?_, ?_⟩
      · intro q hlt
        rw [hoff q (by omega)]
        exact ⟨hC q hlt, rfl, rfl, rfl⟩
      · intro q hne
        rw [hoff q hne]
      · intro q hlt
        rw [hcur] at hlt
        rw [hoff q (by omega)]
        exact hC q hlt
      · intro q hlt
        rw [hcur] at hlt
        rw [hoff q (by omega)]
        exact hF q hlt
  | genSeed sender pid now fh h =>
    obtain ⟨hpid, hcl, hpart, hte, hta, hcase⟩ := generateRandomSeed_ok_effects hC h
    rcases hcase with ⟨hcur, hoff⟩ | ⟨hpc, hcur, hnew, hoff⟩
    · refine ⟨by omega, ?_, ?_, ?_, ?_⟩
      · intro q hlt
        by_cases hq : q = pid
        · subst hq
          exact ⟨hcl, hpart, hte, hta⟩
        · rw [hoff q hq]
          exact ⟨hC q hlt, rfl, rfl, rfl⟩
      · intro q hne
        by_cases hq : q = pid
        · subst hq
          exact hpart
        · rw [hoff q hq]
      · intro q hlt
        rw [hcur] at hlt
        by_cases hq : q = pid
        · subst hq
          exact hcl
        · rw [hoff q hq]
          exact hC q hlt
      · intro q hlt
        rw [hcur] at hlt
        have hq : q ≠ pid := by omega
        rw [hoff q hq]
        exact hF q hlt
    · subst hpc
      refine ⟨by omega, ?_, ?_, ?_, ?_⟩
      · intro q hlt
        rw [hoff q (by omega) (by omega)]
        exact ⟨hC q hlt, rfl, rfl, rfl⟩
      · intro q hne
        by_cases hq2 : q = s.currentPoolId + 1
        · subst hq2
          rw [hnew, hF (s.currentPoolId + 1) (by omega)]
          rfl
        · rw [hoff q hne hq2]
      · intro q hlt
        rw [hcur] at hlt
        by_cases hq : q = s.currentPoolId
        · subst hq
          exact hcl
        · rw [hoff q hq (by omega)]
          exact hC q (by omega)
      · intro q hlt
        rw [hcur] at hlt
        rw [hoff q (by omega) (by omega)]
        exact hF q (by omega)
  | draw sender pid now c pr h =>
    obtain ⟨hpid, hcl, hpart, hte, hta, hcase⟩ := drawWinners_ok_effects hC h
    rcases hcase with ⟨hcur, hoff⟩ | ⟨hpc, hcur, hnew, hoff⟩
    · refine ⟨by omega, ?_, ?_, ?_, ?_⟩
      · intro q hlt
        by_cases hq : q = pid
        · subst hq
          exact ⟨hcl, hpart, hte, hta⟩
        · rw [hoff q hq]
          exact ⟨hC q hlt, rfl, rfl, rfl⟩
      · intro q hne
        by_cases hq : q = pid
        · subst hq
          exact hpart
        · rw [hoff q hq]
      · intro q hlt
        rw [hcur] at hlt
        by_cases hq : q = pid
        · subst hq
          exact hcl
        · rw [hoff q hq]
          exact hC q hlt
      · intro q hlt
        rw [hcur] at hlt
        have hq : q ≠ pid := by omega
        rw [hoff q hq]
        exact hF q hlt
    · subst hpc
      refine ⟨by omega, ?_, ?_, ?_, ?_⟩
      · intro q hlt
        rw [hoff q (by omega) (by omega)]
        exact ⟨hC q hlt, rfl, rfl, rfl⟩
      · intro q hne
        by_cases hq2 : q = s.currentPoolId + 1
        · subst hq2
          rw [hnew, hF (s.currentPoolId + 1) (by omega)]
          rfl
        · rw [hoff q hne hq2]
      · intro q hlt
        rw [hcur] at hlt
        by_cases hq : q = s.currentPoolId
        · subst hq
          exact hcl
        · rw [hoff q hq (by omega)]
          exact hC q (by omega)
      · intro q hlt
        rw [hcur] at hlt
        rw [hoff q (by omega) (by omega)]
        exact hF q (by omega)
  | claim sender pid h =>
    obtain ⟨hpid, hcur, hoff, hcl, hpart, hte, hta⟩ := claimReward_ok_effects h
    refine ⟨by omega, ?_, ?_, ?_, ?_⟩
    · intro q hlt
      by_cases hq : q = pid
      · subst hq
        exact ⟨by rw [hcl]; exact hC q hlt, hpart, hte, hta⟩
      · rw [hoff q hq]
        exact ⟨hC q hlt, rfl, rfl, rfl⟩
    · intro q hne
      by_cases hq : q = pid
      · subst hq
        exact hpart
      · rw [hoff q hq]
    · intro q hlt
      rw [hcur] at hlt
      by_cases hq : q = pid
      · subst hq
        rw [hcl]
        exact hC q hlt
      · rw [hoff q hq]
        exact hC q hlt
    · intro q hlt
      rw [hcur] at hlt
      have hq : q ≠ pid := by omega
      rw [hoff q hq]
      exact hF q hlt
  | setFeeRecipient sender nr h =>
    obtain ⟨hpools, hcur⟩ := setProtocolFeeRecipient_ok_effects h
    refine ⟨by omega, ?_, ?_, ?_, ?_⟩
    · intro q hlt
      rw [hpools]
      exact ⟨hC q hlt, rfl, rfl, rfl⟩
    · intro q _
      rw [hpools]
    · intro q hlt
      rw [hcur] at hlt
      rw [hpools]
      exact hC q hlt
    · intro q hlt
      rw [hcur] at hlt
      rw [hpools]
      exact hF q hlt

/-- Both invariants hold in every reachable state. -/
lemma reachable_inv {env : FheEnv} {s : RaffleState} (hr : Reachable env s) :
    ClosedInv s ∧ FreshInv s := by
  induction hr with
  | init deployer feeRecipient selfAddr bal hfee =>
    constructor
    · intro pid hlt
      simp [initState] at hlt
    · intro pid _
      rfl
  | step hr hs ih =>
    obtain ⟨_, _, _, hc, hf⟩ := step_preserves ih.1 ih.2 hs
    exact ⟨hc, hf⟩

/-- C10: in every reachable state, every pool with an id strictly below
`currentPoolId` has its closed flag set; moreover along every further
successful transaction the current id never decreases, each such archived pool
keeps its closed flag, participant list, entry count and collected total
unchanged, and participant lists change only in the pool whose id equals
`currentPoolId` (so the closed flag is permanently true and the admission data
of archived pools is frozen forever). -/
theorem pool_archive_invariant :
    ∀ (env : FheEnv) (s : RaffleState), Reachable env s →
      (∀ pid, pid < s.currentPoolId → (s.pools pid).isClosed = true) ∧
      (∀ s', Step env s s' →
        s.currentPoolId ≤ s'.currentPoolId ∧
        (∀ pid, pid < s.currentPoolId →
            (s'.pools pid).isClosed = true ∧
            (s'.pools pid).participants = (s.pools pid).participants ∧
            (s'.pools pid).totalEntries = (s.pools pid).totalEntries ∧
            (s'.pools pid).totalAmount = (s.pools pid).totalAmount) ∧
        (∀ pid, pid ≠ s.currentPoolId →
            (s'.pools pid).participants = (s.pools pid).participants)) := by
  intro env s hr
  obtain ⟨hc, hf⟩ := reachable_inv hr
  refine ⟨hc, ?_⟩
  intro s' hs
  obtain ⟨h1, h2, h3, _, _⟩ := step_preserves hc hf hs
  exact ⟨h1, h2, h3⟩

/-- Witness for C10 at the deployment state (reachability discharged by the
`Reachable.init` constructor). -/
theorem pool_archive_invariant_witness :
    (8 ≠ 0) ∧
    (∀ pid, pid < (initState 9 8 100 (fun _ => 0)).currentPoolId →
        ((initState 9 8 100 (fun _ => 0)).pools pid).isClosed = true) :=
  ⟨by decide,
   (pool_archive_invariant envW (initState 9 8 100 (fun _ => 0))
      (Reachable.init 9 8 100 (fun _ => 0) (by decide))).1⟩

end Raffle
